import Mathlib

/-!
Shallow embedding of `torch_ac/algos/base.py` (class `BaseAlgo`), the
experience-collection and advantage-estimation core of an on-policy RL
trainer.  Numeric values are modelled as rationals; a `T × N` buffer is a
function `ℕ → ℕ → ℚ` indexed by time slot then process index.
-/

/-- One backward GAE chain, structural in the number of remaining recorded
steps after `t`.  `gaeAdvAux … t rest` is the advantage written at time `t`
when `rest` recorded slots follow `t`; `rest = 0` means `t` is the last slot,
whose successor data is the bootstrap value and the current mask.  This
mirrors the backward loop body of `collect_experiences` (base.py lines
334-340): `delta = rewards[i] + discount * next_value * next_mask - values[i]`
and `advantages[i] = delta + discount * gae_lambda * next_advantage *
next_mask`. -/
def gaeAdvAux (discount lam : ℚ) (values rewards masks : ℕ → ℚ)
    (bootValue curMask : ℚ) : ℕ → ℕ → ℚ
  | t, 0 =>
    rewards t + discount * bootValue * curMask - values t
      + discount * lam * 0 * curMask
  | t, rest + 1 =>
    rewards t + discount * values (t + 1) * masks (t + 1) - values t
      + discount * lam
        * gaeAdvAux discount lam values rewards masks bootValue curMask (t + 1) rest
        * masks (t + 1)

/-- Advantage at time `t` for a horizon of `T` recorded steps, one process
column at a time, as computed by the backward loop of
`collect_experiences`. -/
def gaeAdv (T : ℕ) (discount lam : ℚ) (values rewards masks : ℕ → ℚ)
    (bootValue curMask : ℚ) (t : ℕ) : ℚ :=
  gaeAdvAux discount lam values rewards masks bootValue curMask t (T - 1 - t)

/-- The full `T × N` advantage buffer filled by the backward loop: column `p`
of the value/reward/mask buffers feeds the scalar backward recurrence, with
per-process bootstrap value and current mask. -/
def advantagesBuf (T : ℕ) (discount lam : ℚ) (values rewards masks : ℕ → ℕ → ℚ)
    (bootValue curMask : ℕ → ℚ) (t p : ℕ) : ℚ :=
  gaeAdv T discount lam (fun s => values s p) (fun s => rewards s p)
    (fun s => masks s p) (bootValue p) (curMask p) t

/-- Process-major flattening of a time-major `T × N` buffer, as produced by
`buffer.transpose(0, 1).reshape(-1)` in `collect_experiences` (base.py lines
354-365): the transposed `N × T` array read in row-major order, so flat index
`k` holds `buf (k % T) (k / T)`. -/
def flattenTxN {α : Type} (T N : ℕ) (buf : ℕ → ℕ → α) : List α :=
  (List.range (N * T)).map fun k => buf (k % T) (k / T)

/-- The observation flattening of `collect_experiences` (base.py lines
351-353): the double list comprehension `[obss[i][j] for j in range(N) for i
in range(T)]`, process-major outer loop, time-major inner loop. -/
def flattenObs {α : Type} (T N : ℕ) (buf : ℕ → ℕ → α) : List α :=
  (List.range N).flatMap fun p => (List.range T).map fun t => buf t p

/-- Reading a flat process-major batch back as a `T × N` buffer: cell
`[t][p]` is flat index `p * T + t`. -/
def unflattenTxN {α : Type} (T : ℕ) (l : List α) (t p : ℕ) : Option α :=
  l[p * T + t]?

/-- The flat `returnn` field of the experience batch (base.py line 364):
elementwise sum of the flat `value` and flat `advantage` fields. -/
def expsReturnn (T N : ℕ) (values advBuf : ℕ → ℕ → ℚ) : List ℚ :=
  List.zipWith (· + ·) (flattenTxN T N values) (flattenTxN T N advBuf)

/-- Mutable logging state of `BaseAlgo`: the done counter, the per-process
running episode accumulators (`log_episode_*`, base.py lines 102-117) and the
per-channel episode history lists (`log_return*` etc., lines 119-132).
Accumulators are functions of the process index; histories are lists. -/
structure LogState where
  done_counter : ℕ
  ep_messes : ℕ → ℚ
  ep_perf_full : ℕ → ℚ
  ep_perf : ℕ → ℚ
  ep_buttons : ℕ → ℚ
  ep_phones : ℕ → ℚ
  ep_dirt : ℕ → ℚ
  ep_return : ℕ → ℚ
  ep_reshaped : ℕ → ℚ
  ep_reshaped_perf : ℕ → ℚ
  ep_reshaped_buttons : ℕ → ℚ
  ep_reshaped_phones : ℕ → ℚ
  ep_reshaped_dirt : ℕ → ℚ
  ep_frames : ℕ → ℚ
  hist_return : List ℚ
  hist_messes : List ℚ
  hist_perf_full : List ℚ
  hist_perf : List ℚ
  hist_buttons : List ℚ
  hist_phones : List ℚ
  hist_dirt : List ℚ
  hist_reshaped : List ℚ
  hist_reshaped_perf : List ℚ
  hist_reshaped_buttons : List ℚ
  hist_reshaped_phones : List ℚ
  hist_reshaped_dirt : List ℚ
  hist_frames : List ℚ

/-- Logging state built by `BaseAlgo.__init__` (base.py lines 100-132): zero
accumulators, done counter `0`, and every history list seeded as
`[0] * num_procs`. -/
def initLogState (N : ℕ) : LogState :=
  { done_counter := 0
    ep_messes := fun _ => 0
    ep_perf_full := fun _ => 0
    ep_perf := fun _ => 0
    ep_buttons := fun _ => 0
    ep_phones := fun _ => 0
    ep_dirt := fun _ => 0
    ep_return := fun _ => 0
    ep_reshaped := fun _ => 0
    ep_reshaped_perf := fun _ => 0
    ep_reshaped_buttons := fun _ => 0
    ep_reshaped_phones := fun _ => 0
    ep_reshaped_dirt := fun _ => 0
    ep_frames := fun _ => 0
    hist_return := List.replicate N 0
    hist_messes := List.replicate N 0
    hist_perf_full := List.replicate N 0
    hist_perf := List.replicate N 0
    hist_buttons := List.replicate N 0
    hist_phones := List.replicate N 0
    hist_dirt := List.replicate N 0
    hist_reshaped := List.replicate N 0
    hist_reshaped_perf := List.replicate N 0
    hist_reshaped_buttons := List.replicate N 0
    hist_reshaped_phones := List.replicate N 0
    hist_reshaped_dirt := List.replicate N 0
    hist_frames := List.replicate N 0 }

/-- One step's logging inputs: the per-process main reward, for each
auxiliary channel its discovery flag (`hasPerf` etc., sticky within a cycle)
together with the per-process values held by the corresponding Python
variable, and the per-process done flags. -/
structure StepIn where
  N : ℕ
  reward : ℕ → ℚ
  hasMesses : Bool
  messes : ℕ → ℚ
  hasPerfFull : Bool
  perfFull : ℕ → ℚ
  hasPerf : Bool
  performances : ℕ → ℚ
  hasButtons : Bool
  buttons : ℕ → ℚ
  hasPhones : Bool
  phones : ℕ → ℚ
  hasDirt : Bool
  dirt : ℕ → ℚ
  done : ℕ → Bool

/-- The post-step continuation mask `1 - done` (base.py line 219). -/
def stepMask (inp : StepIn) (p : ℕ) : ℚ :=
  if inp.done p then 0 else 1

/-- Accumulation phase of one logging step (base.py lines 243-273): guarded
additions of this step's auxiliary values, unconditional addition of the main
reward to both the return and (reshape-free path) reshaped-return
accumulators, unconditional addition of the channel buffer rows (zero when
the channel was never discovered) to the reshaped auxiliary accumulators, and
one frame per process. -/
def logAccumulate (inp : StepIn) (s : LogState) : LogState :=
  { s with
    ep_messes := fun p => s.ep_messes p + (if inp.hasMesses then inp.messes p else 0)
    ep_perf_full := fun p => s.ep_perf_full p + (if inp.hasPerfFull then inp.perfFull p else 0)
    ep_perf := fun p => s.ep_perf p + (if inp.hasPerf then inp.performances p else 0)
    ep_buttons := fun p => s.ep_buttons p + (if inp.hasButtons then inp.buttons p else 0)
    ep_phones := fun p => s.ep_phones p + (if inp.hasPhones then inp.phones p else 0)
    ep_dirt := fun p => s.ep_dirt p + (if inp.hasDirt then inp.dirt p else 0)
    ep_return := fun p => s.ep_return p + inp.reward p
    ep_reshaped := fun p => s.ep_reshaped p + inp.reward p
    ep_reshaped_perf := fun p =>
      s.ep_reshaped_perf p + (if inp.hasPerf then inp.performances p else 0)
    ep_reshaped_buttons := fun p =>
      s.ep_reshaped_buttons p + (if inp.hasButtons then inp.buttons p else 0)
    ep_reshaped_phones := fun p =>
      s.ep_reshaped_phones p + (if inp.hasPhones then inp.phones p else 0)
    ep_reshaped_dirt := fun p =>
      s.ep_reshaped_dirt p + (if inp.hasDirt then inp.dirt p else 0)
    ep_frames := fun p => s.ep_frames p + 1 }

/-- Flush of one process in the done loop (base.py lines 275-308): when
process `p` is done, increment the done counter and append the accumulated
sums (read from the post-accumulation state `s`) to the history lists under
the guards written in the source.  Note the source guards at lines 290-298:
the button-presses histories are appended under `hasPhonesCleaned` and the
phones-cleaned histories under `hasButtonPresses`. -/
def logFlushProc (inp : StepIn) (s : LogState) (acc : LogState) (p : ℕ) : LogState :=
  if inp.done p then
    { acc with
      done_counter := acc.done_counter + 1
      hist_messes := acc.hist_messes ++ if inp.hasMesses then [s.ep_messes p] else []
      hist_perf_full :=
        acc.hist_perf_full ++ if inp.hasPerfFull then [s.ep_perf_full p] else []
      hist_perf := acc.hist_perf ++ if inp.hasPerf then [s.ep_perf p] else []
      hist_reshaped_perf :=
        acc.hist_reshaped_perf ++ if inp.hasPerf then [s.ep_reshaped_perf p] else []
      hist_buttons := acc.hist_buttons ++ if inp.hasPhones then [s.ep_buttons p] else []
      hist_reshaped_buttons :=
        acc.hist_reshaped_buttons ++ if inp.hasPhones then [s.ep_reshaped_buttons p] else []
      hist_phones := acc.hist_phones ++ if inp.hasButtons then [s.ep_phones p] else []
      hist_reshaped_phones :=
        acc.hist_reshaped_phones ++ if inp.hasButtons then [s.ep_reshaped_phones p] else []
      hist_dirt := acc.hist_dirt ++ if inp.hasDirt then [s.ep_dirt p] else []
      hist_reshaped_dirt :=
        acc.hist_reshaped_dirt ++ if inp.hasDirt then [s.ep_reshaped_dirt p] else []
      hist_return := acc.hist_return ++ [s.ep_return p]
      hist_reshaped := acc.hist_reshaped ++ [s.ep_reshaped p]
      hist_frames := acc.hist_frames ++ [s.ep_frames p] }
  else acc

/-- Mask phase of one logging step (base.py lines 310-323): every running
accumulator is multiplied elementwise by the post-step mask. -/
def logMaskAccumulators (inp : StepIn) (s : LogState) : LogState :=
  { s with
    ep_messes := fun p => s.ep_messes p * stepMask inp p
    ep_perf_full := fun p => s.ep_perf_full p * stepMask inp p
    ep_perf := fun p => s.ep_perf p * stepMask inp p
    ep_buttons := fun p => s.ep_buttons p * stepMask inp p
    ep_phones := fun p => s.ep_phones p * stepMask inp p
    ep_dirt := fun p => s.ep_dirt p * stepMask inp p
    ep_return := fun p => s.ep_return p * stepMask inp p
    ep_reshaped := fun p => s.ep_reshaped p * stepMask inp p
    ep_reshaped_perf := fun p => s.ep_reshaped_perf p * stepMask inp p
    ep_reshaped_buttons := fun p => s.ep_reshaped_buttons p * stepMask inp p
    ep_reshaped_phones := fun p => s.ep_reshaped_phones p * stepMask inp p
    ep_reshaped_dirt := fun p => s.ep_reshaped_dirt p * stepMask inp p
    ep_frames := fun p => s.ep_frames p * stepMask inp p }

/-- One full logging step of `collect_experiences` (base.py lines 242-323):
accumulate, flush every done process in index order, then mask the
accumulators. -/
def logStep (inp : StepIn) (s : LogState) : LogState :=
  let s1 := logAccumulate inp s
  let s2 := (List.range inp.N).foldl (logFlushProc inp s1) s1
  logMaskAccumulators inp s2

/-- Python's trailing slice `l[-k:]`: the whole list when `k = 0`, otherwise
the last `min k (length l)` entries. -/
def pyTail (k : ℕ) (l : List ℚ) : List ℚ :=
  if k = 0 then l else l.drop (l.length - k)

/-- The windowed per-channel lists of the logs dictionary built at the end of
`collect_experiences` (base.py lines 375-397). -/
structure Logs where
  return_per_episode : List ℚ
  reshaped_return_per_episode : List ℚ
  num_frames_per_episode : List ℚ
  messes_per_episode : List ℚ
  performance_full_per_episode : List ℚ
  performance_per_episode : List ℚ
  reshaped_performance_per_episode : List ℚ
  buttons_per_episode : List ℚ
  reshaped_buttons_per_episode : List ℚ
  phones_per_episode : List ℚ
  reshaped_phones_per_episode : List ℚ
  dirt_per_episode : List ℚ
  reshaped_dirt_per_episode : List ℚ

/-- End-of-cycle summary (base.py lines 373-407): with
`keep = max(log_done_counter, num_procs)`, each channel's window is the last
`keep` entries of its history; afterwards the done counter is reset to `0`
and only the return, reshaped-return and frame-count histories are truncated
to their last `num_procs` entries. -/
def summarize (N : ℕ) (s : LogState) : Logs × LogState :=
  let keep := max s.done_counter N
  ({ return_per_episode := pyTail keep s.hist_return
     reshaped_return_per_episode := pyTail keep s.hist_reshaped
     num_frames_per_episode := pyTail keep s.hist_frames
     messes_per_episode := pyTail keep s.hist_messes
     performance_full_per_episode := pyTail keep s.hist_perf_full
     performance_per_episode := pyTail keep s.hist_perf
     reshaped_performance_per_episode := pyTail keep s.hist_reshaped_perf
     buttons_per_episode := pyTail keep s.hist_buttons
     reshaped_buttons_per_episode := pyTail keep s.hist_reshaped_buttons
     phones_per_episode := pyTail keep s.hist_phones
     reshaped_phones_per_episode := pyTail keep s.hist_reshaped_phones
     dirt_per_episode := pyTail keep s.hist_dirt
     reshaped_dirt_per_episode := pyTail keep s.hist_reshaped_dirt },
   { s with
     done_counter := 0
     hist_return := pyTail N s.hist_return
     hist_reshaped := pyTail N s.hist_reshaped
     hist_frames := pyTail N s.hist_frames })

/-- State of one auxiliary channel during a cycle: its sticky discovery flag
(`hasPerf` etc., reset at the start of each `collect_experiences` call), the
per-process values currently held by the Python channel variable, and the
`T × N` channel reward buffer (zero-initialized each cycle). -/
structure ChanState where
  hasC : Bool
  lastVals : ℕ → ℚ
  buffer : ℕ → ℕ → ℚ

/-- One step of auxiliary-channel handling (base.py lines 195-197 and
231-232, reshape-free path): if the channel key is present in process 0's
metadata this step, set the sticky flag and refresh the channel variable;
then, whenever the sticky flag is set, write the channel variable into
buffer row `t`. -/
def chanStep (inf : Option (ℕ → ℚ)) (t : ℕ) (s : ChanState) : ChanState :=
  let s1 :=
    match inf with
    | some vals => { s with hasC := true, lastVals := vals }
    | none => s
  if s1.hasC then
    { s1 with buffer := fun r p => if r = t then s1.lastVals p else s1.buffer r p }
  else s1

/-- Auxiliary-channel handling over a whole cycle of `T` steps, starting from
an undiscovered channel and a zero buffer. -/
def chanCycle (inf : ℕ → Option (ℕ → ℚ)) (T : ℕ) : ChanState :=
  (List.range T).foldl (fun s t => chanStep (inf t) t s) ⟨false, fun _ => 0, fun _ _ => 0⟩

/-- Main-reward recording (base.py lines 222-230): with a configured
reward-reshaping function the source computes the reshaped rewards and then
unconditionally hits `assert False, "no idea how to use performance here"`;
without one the raw environment rewards are recorded. -/
def writeRewards (hasReshape : Bool) (reshapedRow rewardRow : ℕ → ℚ) :
    Except String (ℕ → ℚ) :=
  if hasReshape then Except.error "no idea how to use performance here"
  else Except.ok rewardRow

/-- One logging step behind the reward-recording stage: the statistics update
runs only if reward recording did not abort. -/
def stepWithLogs (hasReshape : Bool) (reshapedRow : ℕ → ℚ) (inp : StepIn)
    (s : LogState) : Except String LogState :=
  match writeRewards hasReshape reshapedRow inp.reward with
  | Except.error e => Except.error e
  | Except.ok _ => Except.ok (logStep inp s)

/-- Construction-time control checks of `BaseAlgo.__init__` (base.py lines
66-67): `assert acmodel.recurrent or recurrence == 1`, then
`assert num_frames_per_proc % recurrence == 0` (where Python's `%` raises
`ZeroDivisionError` on a zero modulus). -/
def initChecks (recurrent : Bool) (recurrence numFramesPerProc : ℕ) :
    Except String Unit :=
  if recurrent = true ∨ recurrence = 1 then
    if recurrence = 0 then Except.error "ZeroDivisionError"
    else if numFramesPerProc % recurrence = 0 then Except.ok ()
    else Except.error "AssertionError"
  else Except.error "AssertionError"

/-- The live rollout state carried between model calls: recurrent memory rows
and the current continuation mask. -/
structure RolloutState where
  memory : ℕ → ℕ → ℚ
  mask : ℕ → ℚ

/-- The memory tensor handed to the model: `self.memory *
self.mask.unsqueeze(1)`, i.e. row `p` of the stored memory scaled by the
current mask of process `p`. -/
def forwardMemoryArg (memory : ℕ → ℕ → ℚ) (mask : ℕ → ℚ) (p j : ℕ) : ℚ :=
  memory p j * mask p

/-- Memory argument of the per-step model call (base.py line 172). -/
def stepModelMemoryInput (s : RolloutState) : ℕ → ℕ → ℚ :=
  forwardMemoryArg s.memory s.mask

/-- Memory argument of the final bootstrap model call (base.py line 330). -/
def bootstrapModelMemoryInput (s : RolloutState) : ℕ → ℕ → ℚ :=
  forwardMemoryArg s.memory s.mask

/-- A concrete logging step for exercising the done loop: one process, main
reward `0`, button-presses channel discovered with value `5`, phones-cleaned
channel never discovered, and the single process terminating. -/
def c4Input : StepIn :=
  { N := 1
    reward := fun _ => 0
    hasMesses := false
    messes := fun _ => 0
    hasPerfFull := false
    perfFull := fun _ => 0
    hasPerf := false
    performances := fun _ => 0
    hasButtons := true
    buttons := fun _ => 5
    hasPhones := false
    phones := fun _ => 0
    hasDirt := false
    dirt := fun _ => 0
    done := fun _ => true }

/-- A concrete metadata trace for one auxiliary channel: present with value
`5` at step `0`, absent afterwards. -/
def c6Info : ℕ → Option (ℕ → ℚ) :=
  fun t => if t = 0 then some (fun _ => 5) else none

/-- A concrete rollout state whose process `0` has just terminated
(mask `0`) while holding nonzero memory. -/
def c9State : RolloutState :=
  { memory := fun _ _ => 3, mask := fun _ => 0 }

/-- C1: for every filled buffer, bootstrap vector, current mask and
parameters, the advantages satisfy the backward GAE recurrence for all
`t < T`, with `next_value` / `next_mask` / `next_advantage` drawn from slot
`t+1` when `t < T-1` and from the bootstrap value / current mask / `0` at the
last slot; in particular, with `T = 3`, constant reward `1`, constant value
`0`, no terminations, `discount = 0.99`, `λ = 0.95`, each process column has
`advantages[2] = 1`, `advantages[1] = 1.9405`, and
`advantages[0] = 1 + 0.99 * 0.95 * 1.9405`. -/
theorem C1_gae_recurrence_and_scenario :
    (∀ (T : ℕ) (discount lam : ℚ) (values rewards masks : ℕ → ℕ → ℚ)
        (bootValue curMask : ℕ → ℚ) (t p : ℕ), t < T →
      advantagesBuf T discount lam values rewards masks bootValue curMask t p =
        (rewards t p
          + discount * (if t < T - 1 then values (t + 1) p else bootValue p)
              * (if t < T - 1 then masks (t + 1) p else curMask p)
          - values t p)
        + discount * lam
            * (if t < T - 1 then
                advantagesBuf T discount lam values rewards masks bootValue curMask (t + 1) p
              else 0)
            * (if t < T - 1 then masks (t + 1) p else curMask p)) ∧
    (∀ p,
      advantagesBuf 3 (99/100) (95/100) (fun _ _ => 0) (fun _ _ => 1) (fun _ _ => 1)
          (fun _ => 0) (fun _ => 1) 2 p = 1 ∧
      advantagesBuf 3 (99/100) (95/100) (fun _ _ => 0) (fun _ _ => 1) (fun _ _ => 1)
          (fun _ => 0) (fun _ => 1) 1 p = 19405/10000 ∧
      advantagesBuf 3 (99/100) (95/100) (fun _ _ => 0) (fun _ _ => 1) (fun _ _ => 1)
          (fun _ => 0) (fun _ => 1) 0 p = 1 + (99/100) * (95/100) * (19405/10000)) := by
  constructor
  · intro T discount lam values rewards masks bootValue curMask t p ht
    unfold advantagesBuf gaeAdv
    by_cases h : t < T - 1
    · have hk : T - 1 - t = (T - 1 - (t + 1)) + 1 := by omega
      rw [hk]
      simp only [gaeAdvAux, if_pos h]
    · have h0 : T - 1 - t = 0 := by omega
      rw [h0]
      simp only [gaeAdvAux, if_neg h]
  · intro p
    refine ⟨?_, ?_, ?_⟩ <;> norm_num [advantagesBuf, gaeAdv, gaeAdvAux]

/-- Witness for C1: the recurrence instantiated at `T = 1`, `t = 0`, `p = 0`,
all-zero buffers, zero parameters; the hypothesis `0 < 1` is discharged
concretely. -/
theorem C1_gae_recurrence_and_scenario_witness :
    (0 : ℕ) < 1 ∧
    advantagesBuf 1 0 0 (fun _ _ => 0) (fun _ _ => 0) (fun _ _ => 0)
        (fun _ => 0) (fun _ => 0) 0 0 =
      ((fun (_ _ : ℕ) => (0:ℚ)) 0 0
        + 0 * (if 0 < 1 - 1 then (fun (_ _ : ℕ) => (0:ℚ)) (0 + 1) 0 else (fun (_ : ℕ) => (0:ℚ)) 0)
            * (if 0 < 1 - 1 then (fun (_ _ : ℕ) => (0:ℚ)) (0 + 1) 0 else (fun (_ : ℕ) => (0:ℚ)) 0)
        - (fun (_ _ : ℕ) => (0:ℚ)) 0 0)
      + 0 * 0
          * (if 0 < 1 - 1 then
              advantagesBuf 1 0 0 (fun _ _ => 0) (fun _ _ => 0) (fun _ _ => 0)
                (fun _ => 0) (fun _ => 0) (0 + 1) 0
            else 0)
          * (if 0 < 1 - 1 then (fun (_ _ : ℕ) => (0:ℚ)) (0 + 1) 0 else (fun (_ : ℕ) => (0:ℚ)) 0) :=
  ⟨by decide,
    C1_gae_recurrence_and_scenario.1 1 0 0 (fun _ _ => 0) (fun _ _ => 0) (fun _ _ => 0)
      (fun _ => 0) (fun _ => 0) 0 0 (by decide)⟩

/-- Elements of the process-major flattening: flat index `k < N * T` holds
buffer cell `[k % T][k / T]`. -/
theorem flattenTxN_getElem_lt {α : Type} (T N : ℕ) (buf : ℕ → ℕ → α) (k : ℕ)
    (hk : k < N * T) :
    (flattenTxN T N buf)[k]? = some (buf (k % T) (k / T)) := by
  simp [flattenTxN, hk]

/-- Arithmetic of the flat index: `p * T + t` decodes to time `t` and
process `p` when `t < T`. -/
theorem flat_index_decode (T t p : ℕ) (ht : t < T) :
    (p * T + t) % T = t ∧ (p * T + t) / T = p := by
  have hT : 0 < T := by omega
  constructor
  · rw [mul_comm, Nat.mul_add_mod, Nat.mod_eq_of_lt ht]
  · rw [mul_comm, Nat.mul_add_div hT, Nat.div_eq_of_lt ht]
    omega

/-- The flat index `p * T + t` is in range when `t < T` and `p < N`. -/
theorem flat_index_lt (T N t p : ℕ) (ht : t < T) (hp : p < N) :
    p * T + t < N * T := by
  calc p * T + t < p * T + T := by omega
    _ = (p + 1) * T := by ring
    _ ≤ N * T := Nat.mul_le_mul_right T hp

/-- The double-comprehension observation flattening produces the same flat
list as the transpose-and-reshape flattening of the dense fields. -/
theorem flattenObs_eq {α : Type} (T N : ℕ) (buf : ℕ → ℕ → α) :
    flattenObs T N buf = flattenTxN T N buf := by
  induction N with
  | zero => simp [flattenObs, flattenTxN]
  | succ n ih =>
    have h1 : flattenObs T (n + 1) buf
        = flattenObs T n buf ++ (List.range T).map (fun t => buf t n) := by
      simp [flattenObs, List.range_succ]
    have hr : List.range ((n + 1) * T)
        = List.range (n * T) ++ (List.range T).map (n * T + ·) := by
      rw [show (n + 1) * T = n * T + T by ring]
      exact List.range_add (n * T) T
    have h2 : flattenTxN T (n + 1) buf
        = flattenTxN T n buf ++ (List.range T).map (fun t => buf t n) := by
      rw [flattenTxN, hr, List.map_append]
      congr 1
      rw [List.map_map]
      apply List.map_congr_left
      intro j hj
      have hjT : j < T := List.mem_range.mp hj
      have hT : 0 < T := by omega
      simp only [Function.comp_apply]
      have hm : (n * T + j) % T = j := by
        rw [mul_comm, Nat.mul_add_mod, Nat.mod_eq_of_lt hjT]
      have hd : (n * T + j) / T = n := by
        rw [mul_comm, Nat.mul_add_div hT, Nat.div_eq_of_lt hjT]
        omega
      rw [hm, hd]
    rw [h1, h2, ih]

/-- Zipping a list with itself is a pointwise map. -/
theorem zipWith_same {α β : Type} (f : α → α → β) (l : List α) :
    List.zipWith f l l = l.map fun a => f a a := by
  induction l with
  | nil => rfl
  | cons a l ih => simp [ih]

/-- The `returnn` flattening equals the flattening of the cellwise sum
buffer. -/
theorem expsReturnn_eq (T N : ℕ) (values advBuf : ℕ → ℕ → ℚ) :
    expsReturnn T N values advBuf
      = flattenTxN T N (fun t p => values t p + advBuf t p) := by
  unfold expsReturnn flattenTxN
  rw [List.zipWith_map_left, List.zipWith_map_right, zipWith_same]

/-- C2: every flat-batch field places the transition recorded at buffer cell
`[t][p]` at flat index `k = p * T + t` — both for the dense fields flattened
by transpose-and-reshape and for the observation list built by the double
comprehension — and reading the flat batch back through the inverse
permutation recovers the original `T × N` buffer exactly. -/
theorem C2_process_major_order {α : Type} (T N : ℕ) (buf : ℕ → ℕ → α)
    (t p : ℕ) (ht : t < T) (hp : p < N) :
    (flattenTxN T N buf)[p * T + t]? = some (buf t p) ∧
    (flattenObs T N buf)[p * T + t]? = some (buf t p) ∧
    unflattenTxN T (flattenTxN T N buf) t p = some (buf t p) := by
  have hk : p * T + t < N * T := flat_index_lt T N t p ht hp
  have hdec := flat_index_decode T t p ht
  have hmain : (flattenTxN T N buf)[p * T + t]? = some (buf t p) := by
    rw [flattenTxN_getElem_lt T N buf _ hk, hdec.1, hdec.2]
  exact ⟨hmain, by rw [flattenObs_eq]; exact hmain, hmain⟩

/-- Witness for C2 at `T = 2`, `N = 3`, `buf t p = 10 * p + t`, `t = 1`,
`p = 2`: flat index `2 * 2 + 1 = 5` holds `buf 1 2 = 21`. -/
theorem C2_process_major_order_witness :
    (1 : ℕ) < 2 ∧ (2 : ℕ) < 3 ∧
    ((flattenTxN 2 3 (fun t p => 10 * p + t))[2 * 2 + 1]? = some (10 * 2 + 1) ∧
     (flattenObs 2 3 (fun t p => 10 * p + t))[2 * 2 + 1]? = some (10 * 2 + 1) ∧
     unflattenTxN 2 (flattenTxN 2 3 (fun t p => 10 * p + t)) 1 2 = some (10 * 2 + 1)) :=
  ⟨by decide, by decide,
    C2_process_major_order 2 3 (fun t p => 10 * p + t) 1 2 (by decide) (by decide)⟩

/-- C3: every field of the flat batch has exactly `T * N` entries (shown for
an arbitrary dense field, for the observation list, and for `returnn`), and
`returnn[k] = value[k] + advantage[k]` at every flat index `k < T * N`. -/
theorem C3_shape_and_returnn (T N : ℕ) (buf values advBuf : ℕ → ℕ → ℚ) :
    (flattenTxN T N buf).length = T * N ∧
    (flattenObs T N buf).length = T * N ∧
    (expsReturnn T N values advBuf).length = T * N ∧
    ∀ k, k < T * N →
      (expsReturnn T N values advBuf)[k]? =
        some ((flattenTxN T N values).getD k 0 + (flattenTxN T N advBuf).getD k 0) := by
  have hlen : ∀ b : ℕ → ℕ → ℚ, (flattenTxN T N b).length = T * N := by
    intro b
    simp [flattenTxN, Nat.mul_comm]
  refine ⟨hlen buf, ?_, ?_, ?_⟩
  · rw [flattenObs_eq]; exact hlen buf
  · rw [expsReturnn_eq]; exact hlen _
  · intro k hk
    have hk2 : k < N * T := by rwa [Nat.mul_comm] at hk
    have hv := flattenTxN_getElem_lt T N values k hk2
    have ha := flattenTxN_getElem_lt T N advBuf k hk2
    rw [expsReturnn_eq, flattenTxN_getElem_lt T N _ k hk2]
    simp [List.getD_eq_getElem?_getD, hv, ha]

/-- Witness for C3 at `T = 2`, `N = 2`, `values t p = t`, `advBuf t p = p`,
with the elementwise law checked at the concrete flat index `k = 3`. -/
theorem C3_shape_and_returnn_witness :
    (flattenTxN 2 2 (fun t _ => (t : ℚ))).length = 2 * 2 ∧
    (flattenObs 2 2 (fun t _ => (t : ℚ))).length = 2 * 2 ∧
    (expsReturnn 2 2 (fun t _ => (t : ℚ)) (fun _ p => (p : ℚ))).length = 2 * 2 ∧
    (3 < 2 * 2 ∧
     (expsReturnn 2 2 (fun t _ => (t : ℚ)) (fun _ p => (p : ℚ)))[3]? =
       some ((flattenTxN 2 2 (fun t _ => (t : ℚ))).getD 3 0 +
         (flattenTxN 2 2 (fun _ p => (p : ℚ))).getD 3 0)) :=
  ⟨(C3_shape_and_returnn 2 2 (fun t _ => (t : ℚ)) (fun t _ => (t : ℚ)) (fun _ p => (p : ℚ))).1,
   (C3_shape_and_returnn 2 2 (fun t _ => (t : ℚ)) (fun t _ => (t : ℚ)) (fun _ p => (p : ℚ))).2.1,
   (C3_shape_and_returnn 2 2 (fun t _ => (t : ℚ)) (fun t _ => (t : ℚ)) (fun _ p => (p : ℚ))).2.2.1,
   by decide,
   (C3_shape_and_returnn 2 2 (fun t _ => (t : ℚ)) (fun t _ => (t : ℚ))
     (fun _ p => (p : ℚ))).2.2.2 3 (by decide)⟩

/-- C4 (failing evaluation): at a step where the button-presses channel has
been observed (running sum `5` for process `0`) but the phones-cleaned
channel never has, and process `0` terminates, the flush loop appends
nothing to the button-presses history (it stays at its seed `[0]`) while it
does append a spurious entry to the never-observed phones-cleaned history —
the guards at base.py lines 290 and 295 test the opposite channel's
discovery flag.  The done counter and the accumulator masking behave as the
claim states. -/
theorem C4_button_phones_guard_swap :
    c4Input.hasButtons = true ∧
    c4Input.hasPhones = false ∧
    c4Input.done 0 = true ∧
    (logAccumulate c4Input (initLogState 1)).ep_buttons 0 = 5 ∧
    (logStep c4Input (initLogState 1)).hist_buttons = (initLogState 1).hist_buttons ∧
    (logStep c4Input (initLogState 1)).hist_phones = [0, 0] ∧
    (logStep c4Input (initLogState 1)).done_counter = 1 ∧
    (logStep c4Input (initLogState 1)).ep_buttons 0 = 0 :=
  by refine ⟨rfl, rfl, rfl, ?_, ?_, ?_, ?_, ?_⟩ <;>
    norm_num [logStep, logAccumulate, logFlushProc, logMaskAccumulators, stepMask,
      c4Input, initLogState, List.range_succ, List.range_zero, List.replicate]

/-- Length of a Python trailing slice that fits in the list. -/
theorem pyTail_length_of_le (k : ℕ) (l : List ℚ) (hk : 0 < k) (h : k ≤ l.length) :
    (pyTail k l).length = k := by
  unfold pyTail
  rw [if_neg (by omega)]
  simp only [List.length_drop]
  omega

/-- A Python trailing slice of a list no longer than the window is the whole
list. -/
theorem pyTail_of_length_le (k : ℕ) (l : List ℚ) (h : l.length ≤ k) :
    pyTail k l = l := by
  unfold pyTail
  split
  · rfl
  · rw [Nat.sub_eq_zero_of_le h, List.drop_zero]

/-- Python trailing slices are idempotent. -/
theorem pyTail_pyTail (k : ℕ) (l : List ℚ) : pyTail k (pyTail k l) = pyTail k l := by
  by_cases hk : k = 0
  · simp [pyTail, hk]
  · apply pyTail_of_length_le
    unfold pyTail
    rw [if_neg hk]
    simp only [List.length_drop]
    omega

/-- C5: each cycle's logs hold the last `keep = max(done counter, num_procs)`
entries of every channel's history; afterwards the done counter is reset and
exactly the return, reshaped-return and frame-count histories are truncated
to their last `num_procs` entries while every auxiliary-channel history is
left untouched; under the run invariant that the return history holds at
least `num_procs + done counter` entries the returned window has exactly
`keep` entries, is never empty, and a following summary with no new
completions returns the same trailing window of size `num_procs`. -/
theorem C5_summary_window_and_truncation (N : ℕ) (s : LogState)
    (hlen : N + s.done_counter ≤ s.hist_return.length) (hN : 0 < N) :
    ((summarize N s).1.return_per_episode = pyTail (max s.done_counter N) s.hist_return ∧
     (summarize N s).1.reshaped_return_per_episode
        = pyTail (max s.done_counter N) s.hist_reshaped ∧
     (summarize N s).1.num_frames_per_episode
        = pyTail (max s.done_counter N) s.hist_frames ∧
     (summarize N s).1.messes_per_episode = pyTail (max s.done_counter N) s.hist_messes ∧
     (summarize N s).1.performance_full_per_episode
        = pyTail (max s.done_counter N) s.hist_perf_full ∧
     (summarize N s).1.performance_per_episode
        = pyTail (max s.done_counter N) s.hist_perf ∧
     (summarize N s).1.reshaped_performance_per_episode
        = pyTail (max s.done_counter N) s.hist_reshaped_perf ∧
     (summarize N s).1.buttons_per_episode = pyTail (max s.done_counter N) s.hist_buttons ∧
     (summarize N s).1.reshaped_buttons_per_episode
        = pyTail (max s.done_counter N) s.hist_reshaped_buttons ∧
     (summarize N s).1.phones_per_episode = pyTail (max s.done_counter N) s.hist_phones ∧
     (summarize N s).1.reshaped_phones_per_episode
        = pyTail (max s.done_counter N) s.hist_reshaped_phones ∧
     (summarize N s).1.dirt_per_episode = pyTail (max s.done_counter N) s.hist_dirt ∧
     (summarize N s).1.reshaped_dirt_per_episode
        = pyTail (max s.done_counter N) s.hist_reshaped_dirt) ∧
    (summarize N s).2.done_counter = 0 ∧
    ((summarize N s).2.hist_return = pyTail N s.hist_return ∧
     (summarize N s).2.hist_reshaped = pyTail N s.hist_reshaped ∧
     (summarize N s).2.hist_frames = pyTail N s.hist_frames) ∧
    ((summarize N s).2.hist_messes = s.hist_messes ∧
     (summarize N s).2.hist_perf_full = s.hist_perf_full ∧
     (summarize N s).2.hist_perf = s.hist_perf ∧
     (summarize N s).2.hist_buttons = s.hist_buttons ∧
     (summarize N s).2.hist_phones = s.hist_phones ∧
     (summarize N s).2.hist_dirt = s.hist_dirt ∧
     (summarize N s).2.hist_reshaped_perf = s.hist_reshaped_perf ∧
     (summarize N s).2.hist_reshaped_buttons = s.hist_reshaped_buttons ∧
     (summarize N s).2.hist_reshaped_phones = s.hist_reshaped_phones ∧
     (summarize N s).2.hist_reshaped_dirt = s.hist_reshaped_dirt) ∧
    (summarize N s).1.return_per_episode.length = max s.done_counter N ∧
    (summarize N s).1.return_per_episode ≠ [] ∧
    (summarize N ((summarize N s).2)).1.return_per_episode = pyTail N s.hist_return := by
  refine ⟨⟨rfl, rfl, rfl, rfl, rfl, rfl, rfl, rfl, rfl, rfl, rfl, rfl, rfl⟩,
    rfl, ⟨rfl, rfl, rfl⟩, ⟨rfl, rfl, rfl, rfl, rfl, rfl, rfl, rfl, rfl, rfl⟩, ?_, ?_, ?_⟩
  · exact pyTail_length_of_le _ _ (by omega) (by omega)
  · have hl : (summarize N s).1.return_per_episode.length = max s.done_counter N :=
      pyTail_length_of_le _ _ (by omega) (by omega)
    intro hnil
    rw [hnil] at hl
    simp at hl
    omega
  · show pyTail (max (summarize N s).2.done_counter N) (summarize N s).2.hist_return
        = pyTail N s.hist_return
    have h0 : (summarize N s).2.done_counter = 0 := rfl
    rw [h0, Nat.zero_max]
    show pyTail N (pyTail N s.hist_return) = pyTail N s.hist_return
    exact pyTail_pyTail N s.hist_return

/-- Witness for C5 at `N = 1` and the freshly initialized logging state:
the run invariant holds (`1 + 0 ≤ 1`) and the done counter reads `0` right
after the summary. -/
theorem C5_summary_window_and_truncation_witness :
    (1 + (initLogState 1).done_counter ≤ (initLogState 1).hist_return.length ∧
      (0:ℕ) < 1) ∧
    (summarize 1 (initLogState 1)).2.done_counter = 0 :=
  ⟨⟨by norm_num [initLogState], by norm_num⟩,
    (C5_summary_window_and_truncation 1 (initLogState 1)
      (by norm_num [initLogState]) (by norm_num)).2.1⟩

/-- C10: at construction every episode history list — return, reshaped
return, frame count, and every auxiliary channel — is seeded with
`num_procs` zero entries, the done counter starts at `0`, and consequently
the first summary's windowed list for every channel is exactly those
`num_procs` zero entries (length `num_procs`, no completed episode behind
them). -/
theorem C10_seeded_histories (N : ℕ) :
    ((initLogState N).hist_return = List.replicate N 0 ∧
     (initLogState N).hist_reshaped = List.replicate N 0 ∧
     (initLogState N).hist_frames = List.replicate N 0 ∧
     (initLogState N).hist_messes = List.replicate N 0 ∧
     (initLogState N).hist_perf_full = List.replicate N 0 ∧
     (initLogState N).hist_perf = List.replicate N 0 ∧
     (initLogState N).hist_buttons = List.replicate N 0 ∧
     (initLogState N).hist_phones = List.replicate N 0 ∧
     (initLogState N).hist_dirt = List.replicate N 0 ∧
     (initLogState N).hist_reshaped_perf = List.replicate N 0 ∧
     (initLogState N).hist_reshaped_buttons = List.replicate N 0 ∧
     (initLogState N).hist_reshaped_phones = List.replicate N 0 ∧
     (initLogState N).hist_reshaped_dirt = List.replicate N 0) ∧
    (initLogState N).done_counter = 0 ∧
    ((summarize N (initLogState N)).1.return_per_episode = List.replicate N 0 ∧
     (summarize N (initLogState N)).1.reshaped_return_per_episode = List.replicate N 0 ∧
     (summarize N (initLogState N)).1.num_frames_per_episode = List.replicate N 0 ∧
     (summarize N (initLogState N)).1.messes_per_episode = List.replicate N 0 ∧
     (summarize N (initLogState N)).1.performance_full_per_episode = List.replicate N 0 ∧
     (summarize N (initLogState N)).1.performance_per_episode = List.replicate N 0 ∧
     (summarize N (initLogState N)).1.reshaped_performance_per_episode
        = List.replicate N 0 ∧
     (summarize N (initLogState N)).1.buttons_per_episode = List.replicate N 0 ∧
     (summarize N (initLogState N)).1.reshaped_buttons_per_episode = List.replicate N 0 ∧
     (summarize N (initLogState N)).1.phones_per_episode = List.replicate N 0 ∧
     (summarize N (initLogState N)).1.reshaped_phones_per_episode = List.replicate N 0 ∧
     (summarize N (initLogState N)).1.dirt_per_episode = List.replicate N 0 ∧
     (summarize N (initLogState N)).1.reshaped_dirt_per_episode = List.replicate N 0) ∧
    (summarize N (initLogState N)).1.return_per_episode.length = N := by
  have hwin : pyTail (max (initLogState N).done_counter N) (List.replicate N (0:ℚ))
      = List.replicate N 0 := by
    apply pyTail_of_length_le
    simp [initLogState]
  refine ⟨⟨rfl, rfl, rfl, rfl, rfl, rfl, rfl, rfl, rfl, rfl, rfl, rfl, rfl⟩, rfl,
    ⟨hwin, hwin, hwin, hwin, hwin, hwin, hwin, hwin, hwin, hwin, hwin, hwin, hwin⟩, ?_⟩
  show (pyTail (max (initLogState N).done_counter N) (List.replicate N (0:ℚ))).length = N
  rw [hwin, List.length_replicate]

/-- A step of channel handling leaves every buffer row other than the
current one unchanged. -/
theorem chanStep_buffer_ne (inf : Option (ℕ → ℚ)) (t r p : ℕ) (s : ChanState)
    (h : r ≠ t) :
    (chanStep inf t s).buffer r p = s.buffer r p := by
  unfold chanStep
  rcases inf with _ | vals <;> dsimp only <;> split <;> simp [h]

/-- Unfolding one trailing step of a channel cycle. -/
theorem chanCycle_succ (inf : ℕ → Option (ℕ → ℚ)) (T : ℕ) :
    chanCycle inf (T + 1) = chanStep (inf T) T (chanCycle inf T) := by
  unfold chanCycle
  rw [List.range_succ, List.foldl_append]
  rfl

/-- A channel absent from every step of a cycle stays undiscovered with a
zero buffer. -/
theorem chanCycle_all_absent (inf : ℕ → Option (ℕ → ℚ)) (T : ℕ)
    (h : ∀ s, s < T → inf s = none) :
    chanCycle inf T = ⟨false, fun _ => 0, fun _ _ => 0⟩ := by
  induction T with
  | zero => rfl
  | succ n ih =>
    rw [chanCycle_succ, ih (fun s hs => h s (by omega)), h n (by omega)]
    rfl

/-- Buffer row `t` is settled once step `t` has run: later steps of the
cycle never rewrite it. -/
theorem chanCycle_buffer_stable (inf : ℕ → Option (ℕ → ℚ)) (t p : ℕ) :
    ∀ T, t < T → (chanCycle inf T).buffer t p = (chanCycle inf (t + 1)).buffer t p := by
  intro T
  induction T with
  | zero => omega
  | succ n ih =>
    intro h
    by_cases htn : t = n
    · subst htn; rfl
    · rw [chanCycle_succ, chanStep_buffer_ne _ _ _ _ _ (by omega), ih (by omega)]

/-- C6 (counterexample): with a channel present at step `0` with value `5`
and absent at step `1`, buffer row `1` is `5`, not zero — the sticky
discovery flag makes the absent step reuse the stale channel values. -/
theorem C6_absent_after_present_not_zero :
    c6Info 1 = none ∧ (chanCycle c6Info 2).buffer 1 0 = 5 := by
  constructor
  · rfl
  · norm_num [chanCycle, chanStep, c6Info, List.range_succ, List.range_zero]

/-- C6 (amended): if an auxiliary channel's key is absent from process 0's
metadata at every step up to and including `t`, then buffer row `t` is zero
for every process (and the absence raises no error — the cycle is a total
function); once the key has appeared, a later absent step instead reuses the
most recently seen values. -/
theorem C6_zero_until_first_appearance (inf : ℕ → Option (ℕ → ℚ)) (T t p : ℕ)
    (ht : t < T) (habs : ∀ s, s ≤ t → inf s = none) :
    (chanCycle inf T).buffer t p = 0 := by
  rw [chanCycle_buffer_stable inf t p T ht, chanCycle_succ,
    chanCycle_all_absent inf t (fun s hs => habs s (by omega)), habs t (by omega)]
  rfl

/-- Witness for C6 (amended) with an always-absent channel, `T = 1`,
`t = 0`. -/
theorem C6_zero_until_first_appearance_witness :
    (0:ℕ) < 1 ∧ (chanCycle (fun _ => none) 1).buffer 0 0 = 0 :=
  ⟨by decide,
    C6_zero_until_first_appearance (fun _ => none) 1 0 0 (by decide) (fun _ _ => rfl)⟩

/-- C7: whenever the reward-reshaping function is configured — in particular
together with any active auxiliary channels in the step inputs — the step
aborts with the source's error (`assert False, "no idea how to use
performance here"`, base.py line 228) and no statistics update is
recorded. -/
theorem C7_reshape_configured_aborts (reshapedRow : ℕ → ℚ) (inp : StepIn)
    (s : LogState) :
    stepWithLogs true reshapedRow inp s
      = Except.error "no idea how to use performance here" := rfl

/-- C8 (counterexample): with a non-recurrent model, `recurrence = 1` and
`num_frames_per_proc = 0`, both construction assertions pass and
construction succeeds, although `0` is not a *positive* multiple of the
recurrence — positivity is never checked, so construction does not fail
exactly on the claimed precondition. -/
theorem C8_zero_frames_accepted :
    initChecks false 1 0 = Except.ok () ∧ ¬ (0 < 0) := ⟨rfl, by omega⟩

/-- C8 (amended): the two checks run once at construction; construction
succeeds exactly when (the model is recurrent or `recurrence = 1`) and
`recurrence ≠ 0` and `num_frames_per_proc` is a — not necessarily
positive — multiple of `recurrence`; otherwise it raises before any further
initialization. -/
theorem C8_construction_checks (recurrent : Bool) (recurrence T : ℕ) :
    initChecks recurrent recurrence T = Except.ok () ↔
      ((recurrent = true ∨ recurrence = 1) ∧ recurrence ≠ 0 ∧ T % recurrence = 0) := by
  unfold initChecks
  by_cases h1 : recurrent = true ∨ recurrence = 1
  · rw [if_pos h1]
    by_cases h2 : recurrence = 0
    · rw [if_pos h2]; simp [h1, h2]
    · rw [if_neg h2]
      by_cases h3 : T % recurrence = 0
      · rw [if_pos h3]; simp [h1, h2, h3]
      · rw [if_neg h3]; simp [h1, h2, h3]
  · rw [if_neg h1]; simp [h1]

/-- C9: with a recurrent policy, the memory handed to the model — in the
per-step loop and in the final bootstrap evaluation alike — is the stored
memory multiplied elementwise by the current mask, so the recurrent state of
every process whose episode just terminated (mask `0`) is zeroed before the
next forward pass. -/
theorem C9_model_memory_masked (s : RolloutState) (p j : ℕ) :
    stepModelMemoryInput s p j = s.memory p j * s.mask p ∧
    bootstrapModelMemoryInput s p j = s.memory p j * s.mask p ∧
    (s.mask p = 0 →
      stepModelMemoryInput s p j = 0 ∧ bootstrapModelMemoryInput s p j = 0) := by
  refine ⟨rfl, rfl, fun h => ?_⟩
  constructor <;>
    simp [stepModelMemoryInput, bootstrapModelMemoryInput, forwardMemoryArg, h]

/-- Witness for C9 at a state with nonzero memory and a terminated process
`0`. -/
theorem C9_model_memory_masked_witness :
    c9State.mask 0 = 0 ∧
    stepModelMemoryInput c9State 0 0 = c9State.memory 0 0 * c9State.mask 0 ∧
    bootstrapModelMemoryInput c9State 0 0 = c9State.memory 0 0 * c9State.mask 0 ∧
    stepModelMemoryInput c9State 0 0 = 0 ∧
    bootstrapModelMemoryInput c9State 0 0 = 0 :=
  ⟨rfl, (C9_model_memory_masked c9State 0 0).1, (C9_model_memory_masked c9State 0 0).2.1,
    ((C9_model_memory_masked c9State 0 0).2.2 rfl).1,
    ((C9_model_memory_masked c9State 0 0).2.2 rfl).2⟩
